import Mathlib

/-
Verification development for the Wanderlog-to-KML converter (parse.py).

The source program is a linear pipeline: locate an embedded JSON payload in
the page text (a regex search), decode it, walk the structure collecting
location records, and emit KML documents.  We embed the payload values as an
inductive JSON type, Python dictionaries keyed by hashable scalars as
association lists, and the fallible Python code as Except-valued functions,
distinguishing the exception classes that the source catches (KeyError,
TypeError) from those it does not (AttributeError, ValueError).

Abstractions that the claims do not depend on, noted here once:
Python floats are modelled as rationals, so the exact repr of a non-integer
float is not modelled (renderQ falls back to a fraction form; integer values
render exactly); Python dict equality between two dict values is modelled
field-wise in order (the claims never compare dict values); the Unicode
extent of the regex class \s is modelled by its ASCII members.
-/

namespace Wanderlog

/-- JSON values as produced by json.loads: the payload data model. Booleans
are kept distinct from numbers because the source inspects them with
isinstance, where Python bool is a subclass of int. -/
inductive JValue where
  | null
  | bool (b : Bool)
  | num (q : ℚ)
  | str (s : String)
  | arr (xs : List JValue)
  | obj (fields : List (String × JValue))

/-- The Python exception classes relevant to parse.py control flow.
keyError and typeError are caught by the inner try of extract_data;
attrError (AttributeError) and valueError are not. -/
inductive PyErr where
  | keyError
  | typeError
  | attrError
  | valueError (msg : String)
  deriving DecidableEq

/-- Hashable Python values usable as dict keys.  Python hashes booleans and
numbers by numeric value, so True collides with 1: toKey sends both to the
same key. Lists and dicts are unhashable. -/
inductive PyKey where
  | null
  | num (q : ℚ)
  | str (s : String)
  deriving DecidableEq

/-- Conversion of a JSON value to a dict key; none models an unhashable
value (TypeError on use as a key). -/
def toKey : JValue → Option PyKey
  | .null => some .null
  | .bool b => some (.num (if b then 1 else 0))
  | .num q => some (.num q)
  | .str s => some (.str s)
  | .arr _ => none
  | .obj _ => none

/-- One extracted place, mirroring the dict appended by extract_data at
lines 94-100 of parse.py.  Fields hold the raw Python objects (JSON values)
exactly as the source stores them; day_month is the string built by the
f-string at line 89. -/
structure LocationRecord where
  name : JValue
  lat : JValue
  lng : JValue
  date : JValue
  day_month : String

/-- Lookup in a JSON object field list; the last binding wins, matching the
duplicate-key behaviour of json.loads building a Python dict. -/
def lookupLast (fs : List (String × JValue)) (k : String) : Option JValue :=
  match fs with
  | [] => none
  | (k2, v) :: rest =>
    match lookupLast rest k with
    | some r => some r
    | none => if k2 == k then some v else none

/-- Python subscript v[k] with a string key: dict lookup (KeyError when the
key is absent), TypeError on every non-dict value. -/
def subscr (v : JValue) (k : String) : Except PyErr JValue :=
  match v with
  | .obj fs =>
    match lookupLast fs k with
    | some x => .ok x
    | none => .error .keyError
  | _ => .error .typeError

/-- Python v.get(k, d) for dicts; AttributeError when v is not a dict. -/
def pyGetAttr (v : JValue) (k : String) (d : JValue) : Except PyErr JValue :=
  match v with
  | .obj fs => .ok ((lookupLast fs k).getD d)
  | _ => .error .attrError

/-- Python truthiness of a JSON-decoded value. -/
def pyTruthy : JValue → Bool
  | .null => false
  | .bool b => b
  | .num q => !(q == 0)
  | .str s => !(s == "")
  | .arr xs => !xs.isEmpty
  | .obj fs => !fs.isEmpty

/-- The isinstance(x, (int, float)) test of line 92: true for numbers and
for booleans, since Python bool is a subclass of int. -/
def isNum : JValue → Bool
  | .num _ => true
  | .bool _ => true
  | _ => false

/-- Numeric value of a value passing isNum (booleans count as 0 and 1). -/
def numVal : JValue → ℚ
  | .num q => q
  | .bool b => if b then 1 else 0
  | _ => 0

mutual
/-- Python equality == between JSON-decoded values: numbers and booleans
compare by numeric value across types, lists element-wise; dict equality is
modelled field-wise in order (see the header note). -/
def pyEqVal : JValue → JValue → Bool
  | .null, .null => true
  | .bool a, .bool b => a == b
  | .bool a, .num n => ((if a then (1 : ℚ) else 0) == n)
  | .num n, .bool b => (n == (if b then (1 : ℚ) else 0))
  | .num a, .num b => a == b
  | .str a, .str b => a == b
  | .arr a, .arr b => pyEqList a b
  | .obj a, .obj b => pyEqFields a b
  | _, _ => false

def pyEqList : List JValue → List JValue → Bool
  | [], [] => true
  | x :: xs, y :: ys => pyEqVal x y && pyEqList xs ys
  | _, _ => false

def pyEqFields : List (String × JValue) → List (String × JValue) → Bool
  | [], [] => true
  | (k1, v1) :: xs, (k2, v2) :: ys => k1 == k2 && pyEqVal v1 v2 && pyEqFields xs ys
  | _, _ => false
end

/-- Membership needle in hay for strings (Python substring containment). -/
def strContains (needle hay : List Char) : Bool :=
  match hay with
  | [] => needle.isEmpty
  | _ :: t => needle.isPrefixOf hay || strContains needle t

/-- The Python test k in v for a string k: key containment for dicts,
substring containment for strings, membership for lists, TypeError for
non-container values. -/
def pyContains (k : String) (v : JValue) : Except PyErr Bool :=
  match v with
  | .obj fs => .ok (fs.any (fun f => f.1 == k))
  | .str s => .ok (strContains k.data s.data)
  | .arr xs => .ok (xs.any (fun x => pyEqVal (.str k) x))
  | _ => .error .typeError

/-- Python slicing v[a:b] with nonnegative bounds: defined for strings and
lists (clamped, never raising), TypeError otherwise. -/
def pySlice (v : JValue) (a b : Nat) : Except PyErr JValue :=
  match v with
  | .str s => .ok (.str (String.mk ((s.data.drop a).take (b - a))))
  | .arr xs => .ok (.arr ((xs.drop a).take (b - a)))
  | _ => .error .typeError

/-- Python string slice s[a:b] for 0 <= a <= b, as used on date strings. -/
def strSlice (s : String) (a b : Nat) : String :=
  String.mk ((s.data.drop a).take (b - a))

/-- Python iteration over a value: lists yield elements, strings yield
one-character strings, dicts yield their keys, the rest raise TypeError. -/
def pyIter : JValue → Except PyErr (List JValue)
  | .arr xs => .ok xs
  | .str s => .ok (s.data.map (fun c => .str (String.mk [c])))
  | .obj fs => .ok (fs.map (fun f => .str f.1))
  | _ => .error .typeError

/-- Decimal rendering of a rational: exact for integers (Python str of an
int); the fraction fallback abstracts the float repr (header note). -/
def renderQ (q : ℚ) : String :=
  if q.den = 1 then toString q.num else toString q.num ++ "/" ++ toString q.den

mutual
/-- Python repr of a JSON-decoded value (string escaping inside repr of a
string is not modelled; the claims never render nested strings). -/
def pyRepr : JValue → String
  | .null => "None"
  | .bool b => if b then "True" else "False"
  | .num q => renderQ q
  | .str s => "'" ++ s ++ "'"
  | .arr xs => "[" ++ String.intercalate ", " (pyReprList xs) ++ "]"
  | .obj fs => "\x7b" ++ String.intercalate ", " (pyReprFields fs) ++ "\x7d"

def pyReprList : List JValue → List String
  | [] => []
  | x :: xs => pyRepr x :: pyReprList xs

def pyReprFields : List (String × JValue) → List String
  | [] => []
  | (k, v) :: fs => ("'" ++ k ++ "': " ++ pyRepr v) :: pyReprFields fs
end

/-- Python str of a value, as an f-string renders it: a string is itself,
anything else is its repr. -/
def pyRender (v : JValue) : String :=
  match v with
  | .str s => s
  | v => pyRepr v

/-- A Python dict with hashable keys, as an association list with unique
keys in insertion order (the block_to_date dict of line 74). -/
def Dict : Type := List (PyKey × JValue)

/-- Python dict assignment d[k] = v: overwrite in place when the key
exists, else append, preserving insertion order. -/
def dictInsert (t : List (PyKey × JValue)) (k : PyKey) (v : JValue) :
    List (PyKey × JValue) :=
  match t with
  | [] => [(k, v)]
  | (k2, w) :: rest =>
    if k2 = k then (k2, v) :: rest else (k2, w) :: dictInsert rest k v

/-- Python d.get(k, d0) on a dict with hashable keys. -/
def dictGet (t : List (PyKey × JValue)) (k : PyKey) (d0 : JValue) : JValue :=
  match t with
  | [] => d0
  | (k2, v) :: rest => if k2 = k then v else dictGet rest k d0

/-- Hashing a value for use as a dict key: TypeError when unhashable. -/
def hashKey (v : JValue) : Except PyErr PyKey :=
  match toKey v with
  | some k => .ok k
  | none => .error .typeError

/-- One iteration of the expenses loop, lines 75-77: test both fields are
present (short-circuit and), then read the associated date and block id and
store them in the dict (Python evaluates the assignment right-hand side
before the subscript target). -/
def expenseStep (t : List (PyKey × JValue)) (e : JValue) :
    Except PyErr (List (PyKey × JValue)) := do
  let hasB ← pyContains "blockId" e
  if hasB then do
    let hasA ← pyContains "associatedDate" e
    if hasA then do
      let ad ← subscr e "associatedDate"
      let bid ← subscr e "blockId"
      let k ← hashKey bid
      pure (dictInsert t k ad)
    else pure t
  else pure t

/-- The expenses loop, folding expenseStep from an initial dict. -/
def buildB2D (t : List (PyKey × JValue)) :
    List JValue → Except PyErr (List (PyKey × JValue))
  | [] => .ok t
  | e :: es => do
    let t2 ← expenseStep t e
    buildB2D t2 es

/-- Lines 74-77 of parse.py: the block-id-to-date dict built from
trip_plan.itinerary.budget.get(expenses, []).  A missing expenses key
yields the empty list; a missing itinerary or budget key raises an
uncaught KeyError. -/
def buildTable (tripPlan : JValue) : Except PyErr (List (PyKey × JValue)) := do
  let itin ← subscr tripPlan "itinerary"
  let budget ← subscr itin "budget"
  let expensesV ← pyGetAttr budget "expenses" (.arr [])
  let expenses ← pyIter expensesV
  buildB2D [] expenses

/-- The inner try of extract_data, lines 87-102, catching KeyError and
TypeError: errors of those two classes become a skipped block. -/
def catchKT (x : Except PyErr (Option LocationRecord)) :
    Except PyErr (Option LocationRecord) :=
  match x with
  | .error .keyError => .ok none
  | .error .typeError => .ok none
  | r => r

/-- The day and month display string of line 89: empty for a falsy date,
else built from the slices [8:10] and [5:7] of the date value. -/
def dayMonthOf (date : JValue) : Except PyErr String :=
  if pyTruthy date then do
    let d1 ← pySlice date 8 10
    let d2 ← pySlice date 5 7
    pure (pyRender d1 ++ "." ++ pyRender d2)
  else pure ""

/-- Lines 89-100 given the resolved effective date: derive day_month, read
the coordinates, test them with isinstance, and build the record, reading
the place name last. -/
def recOfPlace (place date : JValue) : Except PyErr (Option LocationRecord) := do
  let dm ← dayMonthOf date
  let geom ← subscr place "geometry"
  let loc ← subscr geom "location"
  let lat ← subscr loc "lat"
  let lng ← subscr loc "lng"
  if !(isNum lat && isNum lng) then pure none
  else do
    let nm ← subscr place "name"
    pure (some { name := nm, lat := lat, lng := lng, date := date,
                 day_month := dm })

/-- The body of the inner try, lines 88-100: resolve the effective date
from the dict with the section date (default empty string) as fallback,
then build the record. -/
def innerStep (b2d : List (PyKey × JValue)) (s place b : JValue) :
    Except PyErr (Option LocationRecord) := do
  let idv ← subscr b "id"
  let sdate ← pyGetAttr s "date" (.str "")
  let k ← hashKey idv
  recOfPlace place (dictGet b2d k sdate)

/-- Lines 85-102: process one block of a section.  Only blocks whose type
tag equals the string place and that carry a place entry are considered;
the inner try converts KeyError and TypeError into a skip. -/
def blockStep (b2d : List (PyKey × JValue)) (s b : JValue) :
    Except PyErr (Option LocationRecord) := do
  let ty ← pyGetAttr b "type" .null
  if pyEqVal ty (.str "place") then do
    let hasP ← pyContains "place" b
    if hasP then do
      let place ← subscr b "place"
      catchKT (innerStep b2d s place b)
    else pure none
  else pure none

/-- The blocks loop of lines 84-102, collecting records in block order. -/
def blocksLoop (b2d : List (PyKey × JValue)) (s : JValue) :
    List JValue → Except PyErr (List LocationRecord)
  | [] => .ok []
  | b :: bs => do
    let r? ← blockStep b2d s b
    let more ← blocksLoop b2d s bs
    pure (match r? with | some r => r :: more | none => more)

/-- Lines 82-102 for one section: skip a section with no blocks entry,
else iterate its blocks value. -/
def sectionRecords (b2d : List (PyKey × JValue)) (s : JValue) :
    Except PyErr (List LocationRecord) := do
  let hasB ← pyContains "blocks" s
  if !hasB then pure []
  else do
    let blocksV ← subscr s "blocks"
    let blocks ← pyIter blocksV
    blocksLoop b2d s blocks

/-- The sections loop of lines 81-102, in section order. -/
def sectionsLoop (b2d : List (PyKey × JValue)) :
    List JValue → Except PyErr (List LocationRecord)
  | [] => .ok []
  | s :: ss => do
    let rs ← sectionRecords b2d s
    let more ← sectionsLoop b2d ss
    pure (rs ++ more)

/-- Lines 68-69: navigate data.tripPlanStore.data.tripPlan; a KeyError in
this chain is caught by the except clause of line 70 and re-raised as a
ValueError (InvalidPayload), while a TypeError is not caught. -/
def getTripPlan (data : JValue) : Except PyErr JValue :=
  match (do
    let s1 ← subscr data "tripPlanStore"
    let s2 ← subscr s1 "data"
    subscr s2 "tripPlan") with
  | .error .keyError => .error (.valueError "Error parsing trip data")
  | r => r

/-- Lines 67-104 of extract_data, from a decoded payload value to the list
of location records (the title extraction is independent and is not part
of any claim). -/
def extract_data (data : JValue) : Except PyErr (List LocationRecord) := do
  let tripPlan ← getTripPlan data
  let b2d ← buildTable tripPlan
  let itin2 ← subscr tripPlan "itinerary"
  let sectionsV ← subscr itin2 "sections"
  let sections ← pyIter sectionsV
  sectionsLoop b2d sections

/-- The ASCII members of the regex class backslash-s. -/
def isPySpace (c : Char) : Bool :=
  c == ' ' || c == '\t' || c == '\n' || c == '\r' || c == '\x0b' || c == '\x0c'

/-- The literal variable name of the regex at line 63. -/
def mobxLit : List Char := "window.__MOBX_STATE__".data

/-- Expect the given literal as a prefix, returning the remainder. -/
def dropLit : List Char → List Char → Option (List Char)
  | [], cs => some cs
  | l :: ls, c :: cs => if c == l then dropLit ls cs else none
  | _ :: _, [] => none

/-- The lazy group body after the opening brace: the shortest prefix ending
at a closing brace that is immediately followed by a semicolon, that brace
included.  This models the non-greedy dot-all match of the regex at line
63, which does not track brace depth or string quoting. -/
def lazyBody : List Char → Option (List Char)
  | c1 :: c2 :: rest =>
    if c1 == '\x7d' && c2 == ';' then some [c1]
    else (lazyBody (c2 :: rest)).map (fun t => c1 :: t)
  | _ => none

/-- Try the whole regex at the head of the text: the literal variable name,
greedy whitespace, an equals sign, greedy whitespace, an opening brace,
then the lazy body. -/
def matchMobxAt (cs : List Char) : Option (List Char) :=
  match dropLit mobxLit cs with
  | none => none
  | some r1 =>
    match r1.dropWhile isPySpace with
    | '=' :: r2 =>
      match r2.dropWhile isPySpace with
      | c :: r3 =>
        if c == '\x7b' then (lazyBody r3).map (fun t => c :: t) else none
      | [] => none
    | _ => none

/-- re.search: try the pattern at each start position, left to right. -/
def searchMobx : List Char → Option (List Char)
  | [] => none
  | c :: cs =>
    match matchMobxAt (c :: cs) with
    | some g => some g
    | none => searchMobx cs

/-- Lines 63-65: locate the payload text in the page, or raise the
ValueError of line 65 (the MissingPayload failure). -/
def locatePayload (html : String) : Except PyErr String :=
  match searchMobx html.data with
  | some g => .ok (String.mk g)
  | none =>
    .error (.valueError
      "No JSON data found in HTML. Make sure you exported the correct Wanderlog page.")

/-- Modelled from the spec for the refinement comparison of the payload
locator: scan for the first balanced brace block with an explicit depth
counter, not counting braces inside quoted strings and honouring backslash
escapes, the block terminated by a semicolon.  The argument depth counts
the braces opened after the first one; inStr tracks an open quote. -/
def balancedBody : List Char → Nat → Bool → Option (List Char)
  | [], _, _ => none
  | c :: cs, depth, inStr =>
    if inStr then
      if c == '\\' then
        match cs with
        | c2 :: cs2 => (balancedBody cs2 depth true).map (fun t => c :: c2 :: t)
        | [] => none
      else if c == '"' then (balancedBody cs depth false).map (fun t => c :: t)
      else (balancedBody cs depth true).map (fun t => c :: t)
    else
      if c == '"' then (balancedBody cs depth true).map (fun t => c :: t)
      else if c == '\x7b' then (balancedBody cs (depth + 1) false).map (fun t => c :: t)
      else if c == '\x7d' then
        match depth with
        | 0 => match cs with
          | ';' :: _ => some [c]
          | _ => none
        | d + 1 => (balancedBody cs d false).map (fun t => c :: t)
      else (balancedBody cs depth false).map (fun t => c :: t)

/-- Modelled from the spec: the whole pattern with the balanced block. -/
def matchBalancedAt (cs : List Char) : Option (List Char) :=
  match dropLit mobxLit cs with
  | none => none
  | some r1 =>
    match r1.dropWhile isPySpace with
    | '=' :: r2 =>
      match r2.dropWhile isPySpace with
      | c :: r3 =>
        if c == '\x7b' then (balancedBody r3 0 false).map (fun t => c :: t) else none
      | [] => none
    | _ => none

/-- Modelled from the spec: search for the balanced payload block. -/
def searchBalanced : List Char → Option (List Char)
  | [] => none
  | c :: cs =>
    match matchBalancedAt (c :: cs) with
    | some g => some g
    | none => searchBalanced cs

/-- Modelled from the spec: the payload as the first balanced block
immediately following the assignment, terminated by a semicolon. -/
def locatePayloadSpec (html : String) : Option String :=
  (searchBalanced html.data).map String.mk

/-- An element tree node as built by create_kml: tag, attributes, optional
text (the raw Python object assigned to the text field), children. -/
structure Xml where
  tag : String
  attrs : List (String × String)
  text : Option JValue
  children : List Xml

/-- The placemark element built for one record by lines 120-131: a name
element (prefixed with the bracketed day and month when show_dates is true
and the day_month string is truthy), a point with the coordinates string
rendering longitude first, and extended data only for a truthy date. -/
def mkPlacemark (show_dates : Bool) (p : LocationRecord) : Xml :=
  { tag := "Placemark", attrs := [], text := none,
    children :=
      { tag := "name", attrs := [],
        text := some (if show_dates && !(p.day_month == "") then
          .str ("[" ++ p.day_month ++ "] " ++ pyRender p.name) else p.name),
        children := [] } ::
      { tag := "Point", attrs := [], text := none,
        children := [
          { tag := "coordinates", attrs := [],
            text := some (.str (pyRender p.lng ++ "," ++ pyRender p.lat ++ ",0")),
            children := [] }] } ::
      (if pyTruthy p.date then
        [{ tag := "ExtendedData", attrs := [], text := none,
           children := [
             { tag := "Data", attrs := [("name", "date")], text := none,
               children := [
                 { tag := "value", attrs := [], text := some p.date,
                   children := [] }] }] }]
      else []) }

/-- Lines 116-131 of create_kml: the kml root with one Document child
whose first child is the name element, followed by one placemark per
record in input order.  The final serialization and file write of lines
134-139 are input and output effects outside the document shape. -/
def create_kml (places : List LocationRecord) (title : String)
    (show_dates : Bool) : Xml :=
  { tag := "kml", attrs := [("xmlns", "http://www.opengis.net/kml/2.2")],
    text := none,
    children := [
      { tag := "Document", attrs := [], text := none,
        children :=
          { tag := "name", attrs := [], text := some (.str title),
            children := [] } :: places.map (mkPlacemark show_dates) }] }

/-- Reading the generated document back: its Document child. -/
def documentOf (k : Xml) : Option Xml :=
  k.children.find? (fun c => c.tag == "Document")

/-- Reading the generated document back: the placemark elements of the
Document, in document order. -/
def placemarksOf (k : Xml) : List Xml :=
  match documentOf k with
  | some d => d.children.filter (fun c => c.tag == "Placemark")
  | none => []

/-- The first child with the given tag. -/
def childTagged (x : Xml) (t : String) : Option Xml :=
  x.children.find? (fun c => c.tag == t)

/-- The text of the name child of a placemark. -/
def nameTextOf (pm : Xml) : Option JValue :=
  (childTagged pm "name").bind (fun n => n.text)

/-- The text of the coordinates child of the point of a placemark. -/
def coordTextOf (pm : Xml) : Option JValue :=
  ((childTagged pm "Point").bind (fun pt => childTagged pt "coordinates")).bind
    (fun c => c.text)

/-- The grouping key of line 185: the date of the record when truthy, else
the reserved string no_date; hashing raises TypeError for an unhashable
truthy date value. -/
def keyOf (p : LocationRecord) : Except PyErr PyKey :=
  hashKey (if pyTruthy p.date then p.date else .str "no_date")

/-- Appending to a defaultdict-of-list entry: the group of the key grows at
its place in insertion order; a new key opens a group at the end. -/
def addToGroup (gs : List (PyKey × List LocationRecord)) (k : PyKey)
    (p : LocationRecord) : List (PyKey × List LocationRecord) :=
  match gs with
  | [] => [(k, [p])]
  | (k2, g) :: rest =>
    if k2 = k then (k2, g ++ [p]) :: rest else (k2, g) :: addToGroup rest k p

/-- The grouping loop of lines 183-186 from an accumulator. -/
def groupAux (acc : List (PyKey × List LocationRecord)) :
    List LocationRecord → Except PyErr (List (PyKey × List LocationRecord))
  | [] => .ok acc
  | p :: ps => do
    let k ← keyOf p
    groupAux (addToGroup acc k p) ps

/-- Lines 183-186 of main: group the records by effective date for the
split emission. -/
def groupByDate (ps : List LocationRecord) :
    Except PyErr (List (PyKey × List LocationRecord)) :=
  groupAux [] ps

/-- Per-record invariant established by the block step: coordinates passed
the isinstance test, and day_month agrees with the effective date. -/
def RecordInv (r : LocationRecord) : Prop :=
  isNum r.lat = true ∧ isNum r.lng = true ∧
  (r.day_month = "" ↔ pyTruthy r.date = false) ∧
  (∀ s, r.date = .str s →
    r.day_month = if s = "" then "" else strSlice s 8 10 ++ "." ++ strSlice s 5 7)

theorem bindOk {α β : Type} {x : Except PyErr α} {f : α → Except PyErr β}
    {b : β} (h : x >>= f = .ok b) : ∃ a, x = .ok a ∧ f a = .ok b := by
  cases x with
  | error e => simp [Bind.bind, Except.bind] at h
  | ok a => exact ⟨a, rfl, h⟩

theorem pureOk {α : Type} {a b : α}
    (h : (pure a : Except PyErr α) = .ok b) : a = b := by
  simpa [Pure.pure, Except.pure] using h

theorem catchKT_ok_some {x : Except PyErr (Option LocationRecord)}
    {r : LocationRecord} (h : catchKT x = .ok (some r)) : x = .ok (some r) := by
  cases x with
  | ok v => simpa [catchKT] using h
  | error e => cases e <;> simp [catchKT] at h

theorem str_dot_ne_empty (a b : String) : a ++ "." ++ b ≠ "" := by
  intro h
  have hl := congrArg String.length h
  simp [String.length_append] at hl
  exact absurd hl.1.2 (by decide)

theorem dayMonthOf_ok {date : JValue} {dm : String}
    (h : dayMonthOf date = .ok dm) :
    (dm = "" ↔ pyTruthy date = false) ∧
    (∀ s, date = .str s →
      dm = if s = "" then "" else strSlice s 8 10 ++ "." ++ strSlice s 5 7) := by
  by_cases hT : pyTruthy date
  · rw [dayMonthOf, if_pos hT] at h
    obtain ⟨d1, h1, h⟩ := bindOk h
    obtain ⟨d2, h2, h⟩ := bindOk h
    have hdm := pureOk h
    subst hdm
    constructor
    · simp [hT, str_dot_ne_empty]
    · intro s hs
      subst hs
      have hs0 : ¬ s = "" := by
        simpa [pyTruthy] using hT
      rw [if_neg hs0]
      simp only [pySlice] at h1 h2
      have e1 : d1 = .str (strSlice s 8 10) := by
        simpa [strSlice] using h1.symm
      have e2 : d2 = .str (strSlice s 5 7) := by
        simpa [strSlice] using h2.symm
      subst e1; subst e2
      rfl
  · rw [dayMonthOf, if_neg hT] at h
    have hdm := pureOk h
    subst hdm
    constructor
    · simp [hT]
    · intro s hs
      subst hs
      have hs0 : s = "" := by
        simpa [pyTruthy] using hT
      simp [hs0]

theorem recOfPlace_some {place date : JValue} {r : LocationRecord}
    (h : recOfPlace place date = .ok (some r)) : r.date = date ∧ RecordInv r := by
  unfold recOfPlace at h
  obtain ⟨dm, hdm, h⟩ := bindOk h
  obtain ⟨geom, hg, h⟩ := bindOk h
  obtain ⟨loc, hl, h⟩ := bindOk h
  obtain ⟨lat, hlat, h⟩ := bindOk h
  obtain ⟨lng, hlng, h⟩ := bindOk h
  cases hc : (isNum lat && isNum lng) with
  | false =>
    rw [hc, if_pos (by decide)] at h
    exact absurd (pureOk h) (by simp)
  | true =>
    rw [hc, if_neg (by decide)] at h
    obtain ⟨nm, hnm, h⟩ := bindOk h
    have hr := pureOk h
    have hrec : r = LocationRecord.mk nm lat lng date dm :=
      (Option.some.inj hr).symm
    subst hrec
    have hnum : isNum lat = true ∧ isNum lng = true := by simpa using hc
    obtain ⟨hdate_iff, hdate_str⟩ := dayMonthOf_ok hdm
    exact ⟨rfl, hnum.1, hnum.2, hdate_iff, hdate_str⟩

theorem innerStep_some {b2d : List (PyKey × JValue)} {s place b : JValue}
    {r : LocationRecord} (h : innerStep b2d s place b = .ok (some r)) :
    RecordInv r := by
  unfold innerStep at h
  obtain ⟨idv, h1, h⟩ := bindOk h
  obtain ⟨sdate, h2, h⟩ := bindOk h
  obtain ⟨k, h3, h⟩ := bindOk h
  exact (recOfPlace_some h).2

theorem blockStep_some {b2d : List (PyKey × JValue)} {s b : JValue}
    {r : LocationRecord} (h : blockStep b2d s b = .ok (some r)) :
    RecordInv r := by
  unfold blockStep at h
  obtain ⟨ty, h1, h⟩ := bindOk h
  by_cases hty : pyEqVal ty (.str "place") = true
  · rw [if_pos hty] at h
    obtain ⟨hasP, h2, h⟩ := bindOk h
    by_cases hp : hasP = true
    · rw [if_pos hp] at h
      obtain ⟨place, h3, h⟩ := bindOk h
      exact innerStep_some (catchKT_ok_some h)
    · rw [if_neg hp] at h
      exact absurd (pureOk h) (by simp)
  · rw [if_neg hty] at h
    exact absurd (pureOk h) (by simp)

theorem blocksLoop_mem {b2d : List (PyKey × JValue)} {s : JValue}
    {bs : List JValue} {rs : List LocationRecord} {r : LocationRecord}
    (h : blocksLoop b2d s bs = .ok rs) (hr : r ∈ rs) : RecordInv r := by
  induction bs generalizing rs with
  | nil =>
    rw [blocksLoop] at h
    cases h
    cases hr
  | cons b bs ih =>
    rw [blocksLoop] at h
    obtain ⟨r?, h1, h⟩ := bindOk h
    obtain ⟨more, h2, h⟩ := bindOk h
    have hrs := pureOk h
    cases r? with
    | some r0 =>
      rw [← hrs] at hr
      rcases List.mem_cons.mp hr with hEq | hMem
      · subst hEq; exact blockStep_some h1
      · exact ih h2 hMem
    | none =>
      rw [← hrs] at hr
      exact ih h2 hr

theorem sectionRecords_mem {b2d : List (PyKey × JValue)} {s : JValue}
    {rs : List LocationRecord} {r : LocationRecord}
    (h : sectionRecords b2d s = .ok rs) (hr : r ∈ rs) : RecordInv r := by
  unfold sectionRecords at h
  obtain ⟨hasB, h1, h⟩ := bindOk h
  by_cases hb : (!hasB) = true
  · rw [if_pos hb] at h
    cases pureOk h
    cases hr
  · rw [if_neg hb] at h
    obtain ⟨blocksV, h2, h⟩ := bindOk h
    obtain ⟨blocks, h3, h⟩ := bindOk h
    exact blocksLoop_mem h hr

theorem sectionsLoop_mem {b2d : List (PyKey × JValue)} {ss : List JValue}
    {rs : List LocationRecord} {r : LocationRecord}
    (h : sectionsLoop b2d ss = .ok rs) (hr : r ∈ rs) : RecordInv r := by
  induction ss generalizing rs with
  | nil =>
    rw [sectionsLoop] at h
    cases h
    cases hr
  | cons s ss ih =>
    rw [sectionsLoop] at h
    obtain ⟨rs1, h1, h⟩ := bindOk h
    obtain ⟨more, h2, h⟩ := bindOk h
    have hrs := pureOk h
    rw [← hrs] at hr
    rcases List.mem_append.mp hr with hMem | hMem
    · exact sectionRecords_mem h1 hMem
    · exact ih h2 hMem

/-- Every record in a successful extraction satisfies the invariant. -/
theorem extract_data_inv {data : JValue} {recs : List LocationRecord}
    {r : LocationRecord} (h : extract_data data = .ok recs) (hr : r ∈ recs) :
    RecordInv r := by
  unfold extract_data at h
  obtain ⟨tripPlan, h1, h⟩ := bindOk h
  obtain ⟨b2d, h2, h⟩ := bindOk h
  obtain ⟨itin2, h3, h⟩ := bindOk h
  obtain ⟨sectionsV, h4, h⟩ := bindOk h
  obtain ⟨sections, h5, h⟩ := bindOk h
  exact sectionsLoop_mem h hr

/-- The contribution of one expense item to the date table: its associated
date, for an item that is an object carrying both fields and whose block
id hashes to the given key. -/
def expenseEntry (e : JValue) (k : PyKey) : Option JValue :=
  match e with
  | .obj fs =>
    match lookupLast fs "blockId", lookupLast fs "associatedDate" with
    | some bid, some ad => if toKey bid = some k then some ad else none
    | _, _ => none
  | _ => none

/-- The date the finished table associates with a key: the entry of the
last expense item that contributes to that key. -/
def lastDateFor (es : List JValue) (k : PyKey) : Option JValue :=
  match es with
  | [] => none
  | e :: rest =>
    match lastDateFor rest k with
    | some v => some v
    | none => expenseEntry e k

theorem dictGet_insert (t : List (PyKey × JValue)) (k0 k : PyKey)
    (v d : JValue) :
    dictGet (dictInsert t k0 v) k d =
      if k0 = k then v else dictGet t k d := by
  induction t with
  | nil =>
    by_cases hk : k0 = k
    · simp [dictInsert, dictGet, hk]
    · simp [dictInsert, dictGet, hk]
  | cons kv rest ih =>
    obtain ⟨k2, w⟩ := kv
    by_cases h2 : k2 = k0
    · subst h2
      by_cases hk : k2 = k
      · simp [dictInsert, dictGet, hk]
      · simp [dictInsert, dictGet, hk]
    · rw [dictInsert, if_neg h2]
      by_cases hk : k2 = k
      · subst hk
        have : ¬ k0 = k2 := fun hx => h2 hx.symm
        simp [dictGet, this]
      · simp [dictGet, hk, ih]

theorem lookupLast_none_of_any_false {fs : List (String × JValue)}
    {k : String} (h : fs.any (fun f => f.1 == k) = false) :
    lookupLast fs k = none := by
  induction fs with
  | nil => rfl
  | cons f rest ih =>
    simp only [List.any_cons, Bool.or_eq_false_iff] at h
    rw [lookupLast, ih h.2]
    simp [h.1]

theorem expenseStep_get {t0 t1 : List (PyKey × JValue)} {e : JValue}
    (h : expenseStep t0 e = .ok t1) (k : PyKey) (d : JValue) :
    dictGet t1 k d = (expenseEntry e k).getD (dictGet t0 k d) := by
  cases e with
  | null => simp [expenseStep, pyContains, Bind.bind, Except.bind] at h
  | bool b => simp [expenseStep, pyContains, Bind.bind, Except.bind] at h
  | num q => simp [expenseStep, pyContains, Bind.bind, Except.bind] at h
  | str s =>
    unfold expenseStep at h
    obtain ⟨hasB, h1, h⟩ := bindOk h
    by_cases hb : hasB = true
    · rw [if_pos hb] at h
      obtain ⟨hasA, h2, h⟩ := bindOk h
      by_cases ha : hasA = true
      · rw [if_pos ha] at h
        obtain ⟨ad, h3, h⟩ := bindOk h
        simp [subscr] at h3
      · rw [if_neg ha] at h
        cases pureOk h
        rfl
    · rw [if_neg hb] at h
      cases pureOk h
      rfl
  | arr xs =>
    unfold expenseStep at h
    obtain ⟨hasB, h1, h⟩ := bindOk h
    by_cases hb : hasB = true
    · rw [if_pos hb] at h
      obtain ⟨hasA, h2, h⟩ := bindOk h
      by_cases ha : hasA = true
      · rw [if_pos ha] at h
        obtain ⟨ad, h3, h⟩ := bindOk h
        simp [subscr] at h3
      · rw [if_neg ha] at h
        cases pureOk h
        rfl
    · rw [if_neg hb] at h
      cases pureOk h
      rfl
  | obj fs =>
    unfold expenseStep at h
    obtain ⟨hasB, h1, h⟩ := bindOk h
    have h1b : fs.any (fun f => f.1 == "blockId") = hasB := by
      simpa [pyContains] using h1
    by_cases hb : hasB = true
    · rw [if_pos hb] at h
      obtain ⟨hasA, h2, h⟩ := bindOk h
      have h2b : fs.any (fun f => f.1 == "associatedDate") = hasA := by
        simpa [pyContains] using h2
      by_cases ha : hasA = true
      · rw [if_pos ha] at h
        obtain ⟨ad, h3, h⟩ := bindOk h
        obtain ⟨bid, h4, h⟩ := bindOk h
        obtain ⟨k0, h5, h⟩ := bindOk h
        have hins := pureOk h
        have hads : lookupLast fs "associatedDate" = some ad := by
          cases hlk : lookupLast fs "associatedDate" with
          | none => simp [subscr, hlk] at h3
          | some x =>
            simp only [subscr, hlk] at h3
            exact congrArg some (Except.ok.inj h3)
        have hbids : lookupLast fs "blockId" = some bid := by
          cases hlk : lookupLast fs "blockId" with
          | none => simp [subscr, hlk] at h4
          | some x =>
            simp only [subscr, hlk] at h4
            exact congrArg some (Except.ok.inj h4)
        have hkk : toKey bid = some k0 := by
          cases htk : toKey bid with
          | none => simp [hashKey, htk] at h5
          | some x =>
            simp only [hashKey, htk] at h5
            exact congrArg some (Except.ok.inj h5)
        rw [← hins, dictGet_insert]
        simp only [expenseEntry, hbids, hads, hkk]
        by_cases hk : k0 = k
        · simp [hk]
        · have hks : ¬ (some k0 = some k) := fun hx => hk (Option.some.inj hx)
          simp [hk, hks]
      · rw [if_neg ha] at h
        cases pureOk h
        have : hasA = false := by
          cases hasA
          · rfl
          · exact absurd rfl ha
        rw [expenseEntry, lookupLast_none_of_any_false (h2b.trans this)]
        cases lookupLast fs "blockId" <;> rfl
    · rw [if_neg hb] at h
      cases pureOk h
      have : hasB = false := by
        cases hasB
        · rfl
        · exact absurd rfl hb
      rw [expenseEntry, lookupLast_none_of_any_false (h1b.trans this)]
      rfl

theorem buildB2D_get {es : List JValue} {t0 t : List (PyKey × JValue)}
    (h : buildB2D t0 es = .ok t) (k : PyKey) (d : JValue) :
    dictGet t k d = (lastDateFor es k).getD (dictGet t0 k d) := by
  induction es generalizing t0 with
  | nil =>
    rw [buildB2D] at h
    cases h
    rfl
  | cons e es ih =>
    rw [buildB2D] at h
    obtain ⟨t1, h1, h⟩ := bindOk h
    have hstep := expenseStep_get h1 k d
    have hrest := ih h
    rw [hrest, hstep, lastDateFor]
    cases lastDateFor es k with
    | some v => rfl
    | none => rfl

/-- The pattern literal occurs at the head of the text. -/
def litAt (cs : List Char) : Bool := (dropLit mobxLit cs).isSome

/-- No closing brace directly followed by a semicolon inside the list: the
lazy group scan runs past the whole list. -/
def noLazyEnd : List Char → Bool
  | c1 :: c2 :: rest => !(c1 == '\x7d' && c2 == ';') && noLazyEnd (c2 :: rest)
  | _ => true

theorem dropLit_self (l r : List Char) : dropLit l (l ++ r) = some r := by
  induction l with
  | nil => rfl
  | cons c ls ih => simp [dropLit, ih]

theorem dropWhile_space {w : List Char} (hw : ∀ c ∈ w, isPySpace c = true)
    {d : Char} (hd : isPySpace d = false) (r : List Char) :
    (w ++ d :: r).dropWhile isPySpace = d :: r := by
  induction w with
  | nil => simp [List.dropWhile, hd]
  | cons c ws ih =>
    have hc : isPySpace c = true := hw c (List.mem_cons_self c ws)
    have hws : ∀ c2 ∈ ws, isPySpace c2 = true :=
      fun c2 hm => hw c2 (List.mem_cons_of_mem c hm)
    simp [List.dropWhile, hc, ih hws]

theorem lazyBody_concat (post : List Char) {mid : List Char}
    (h : noLazyEnd mid = true) :
    lazyBody (mid ++ '\x7d' :: ';' :: post) = some (mid ++ ['\x7d']) := by
  induction mid with
  | nil => rfl
  | cons c1 rest ih =>
    cases rest with
    | nil =>
      show lazyBody (c1 :: '\x7d' :: ';' :: post) = some [c1, '\x7d']
      simp [lazyBody]
    | cons c2 rest2 =>
      have hsplit : (!(c1 == '\x7d' && c2 == ';')) = true ∧
          noLazyEnd (c2 :: rest2) = true := by
        simpa [noLazyEnd, Bool.and_eq_true] using h
      have hcond : (c1 == '\x7d' && c2 == ';') = false := by
        cases hx : (c1 == '\x7d' && c2 == ';')
        · rfl
        · rw [hx] at hsplit
          exact absurd hsplit.1 (by decide)
      show lazyBody (c1 :: c2 :: (rest2 ++ '\x7d' :: ';' :: post)) = _
      rw [lazyBody, if_neg (by simp [hcond])]
      have := ih hsplit.2
      rw [show (c2 :: rest2) ++ '\x7d' :: ';' :: post =
        c2 :: (rest2 ++ '\x7d' :: ';' :: post) from rfl] at this
      rw [this]
      rfl

theorem matchMobxAt_none {cs : List Char} (h : litAt cs = false) :
    matchMobxAt cs = none := by
  unfold matchMobxAt
  cases hd : dropLit mobxLit cs with
  | none => rfl
  | some r => rw [litAt, hd] at h; cases h

theorem searchMobx_cons_hit {c : Char} {cs : List Char} {g : List Char}
    (h : matchMobxAt (c :: cs) = some g) : searchMobx (c :: cs) = some g := by
  rw [searchMobx, h]

theorem searchMobx_skip {pre rest : List Char}
    (h : ∀ i < pre.length, litAt ((pre ++ rest).drop i) = false) :
    searchMobx (pre ++ rest) = searchMobx rest := by
  induction pre with
  | nil => rfl
  | cons c pre ih =>
    show searchMobx (c :: (pre ++ rest)) = _
    rw [searchMobx]
    have h0 : litAt (c :: (pre ++ rest)) = false := by
      simpa using h 0 (Nat.succ_pos _)
    rw [matchMobxAt_none h0]
    exact ih (fun i hi => by simpa using h (i + 1) (Nat.succ_lt_succ hi))

theorem searchMobx_none {cs : List Char}
    (h : ∀ i < cs.length, litAt (cs.drop i) = false) :
    searchMobx cs = none := by
  induction cs with
  | nil => rfl
  | cons c cs ih =>
    rw [searchMobx]
    have h0 : litAt (c :: cs) = false := by
      simpa using h 0 (Nat.succ_pos _)
    rw [matchMobxAt_none h0]
    exact ih (fun i hi => by simpa using h (i + 1) (Nat.succ_lt_succ hi))

theorem matchMobxAt_hit {w1 w2 mid : List Char} (post : List Char)
    (hw1 : ∀ c ∈ w1, isPySpace c = true) (hw2 : ∀ c ∈ w2, isPySpace c = true)
    (hmid : noLazyEnd mid = true) :
    matchMobxAt (mobxLit ++ (w1 ++ '=' :: (w2 ++ '\x7b' ::
        (mid ++ '\x7d' :: ';' :: post)))) =
      some ('\x7b' :: (mid ++ ['\x7d'])) := by
  unfold matchMobxAt
  simp only [dropLit_self,
    dropWhile_space hw1 (show isPySpace '=' = false by decide),
    dropWhile_space hw2 (show isPySpace '\x7b' = false by decide),
    lazyBody_concat post hmid]
  simp

/-- Group membership invariant: every record of every group was keyed to
that group. -/
def GroupsOK (gs : List (PyKey × List LocationRecord)) : Prop :=
  ∀ kg ∈ gs, ∀ q ∈ kg.2, keyOf q = .ok kg.1

theorem groupsOK_add {gs : List (PyKey × List LocationRecord)} {k : PyKey}
    {p : LocationRecord} (hgs : GroupsOK gs) (hp : keyOf p = .ok k) :
    GroupsOK (addToGroup gs k p) := by
  induction gs with
  | nil =>
    intro kg hkg q hq
    rw [addToGroup] at hkg
    rcases List.mem_singleton.mp hkg with rfl
    rcases List.mem_singleton.mp hq with rfl
    exact hp
  | cons g rest ih =>
    obtain ⟨k2, grp⟩ := g
    by_cases hk : k2 = k
    · intro kg hkg q hq
      rw [addToGroup, if_pos hk] at hkg
      rcases List.mem_cons.mp hkg with rfl | hmem
      · rcases List.mem_append.mp hq with hq2 | hq2
        · exact hgs (k2, grp) (List.mem_cons_self _ _) q hq2
        · rcases List.mem_singleton.mp hq2 with rfl
          rw [hp, hk]
      · exact hgs kg (List.mem_cons_of_mem _ hmem) q hq
    · intro kg hkg q hq
      rw [addToGroup, if_neg hk] at hkg
      rcases List.mem_cons.mp hkg with rfl | hmem
      · exact hgs (k2, grp) (List.mem_cons_self _ _) q hq
      · exact ih (fun kg2 hkg2 => hgs kg2 (List.mem_cons_of_mem _ hkg2)) kg
          hmem q hq

theorem flatten_addToGroup (gs : List (PyKey × List LocationRecord))
    (k : PyKey) (p : LocationRecord) :
    (((addToGroup gs k p).map Prod.snd).flatten).Perm
      ((gs.map Prod.snd).flatten ++ [p]) := by
  induction gs with
  | nil => simp [addToGroup]
  | cons g rest ih =>
    obtain ⟨k2, grp⟩ := g
    by_cases hk : k2 = k
    · rw [addToGroup, if_pos hk]
      simp only [List.map_cons, List.flatten_cons]
      rw [List.append_assoc, List.append_assoc]
      exact List.Perm.append_left grp List.perm_append_comm
    · rw [addToGroup, if_neg hk]
      simp only [List.map_cons, List.flatten_cons]
      rw [List.append_assoc]
      exact List.Perm.append_left grp ih

theorem groupAux_perm {ps : List LocationRecord}
    {acc gs : List (PyKey × List LocationRecord)}
    (h : groupAux acc ps = .ok gs) :
    ((gs.map Prod.snd).flatten).Perm ((acc.map Prod.snd).flatten ++ ps) := by
  induction ps generalizing acc with
  | nil =>
    rw [groupAux] at h
    cases h
    simp
  | cons p ps ih =>
    rw [groupAux] at h
    obtain ⟨k, h1, h⟩ := bindOk h
    have hmain := ih h
    refine hmain.trans ?_
    refine ((flatten_addToGroup acc k p).append_right ps).trans ?_
    rw [List.append_assoc]
    exact List.Perm.refl _

theorem groupAux_ok {ps : List LocationRecord}
    {acc gs : List (PyKey × List LocationRecord)}
    (h : groupAux acc ps = .ok gs) (hacc : GroupsOK acc) : GroupsOK gs := by
  induction ps generalizing acc with
  | nil =>
    rw [groupAux] at h
    cases h
    exact hacc
  | cons p ps ih =>
    rw [groupAux] at h
    obtain ⟨k, h1, h⟩ := bindOk h
    exact ih h (groupsOK_add hacc h1)

theorem any_of_lookupLast {fs : List (String × JValue)} {k : String}
    {v : JValue} (h : lookupLast fs k = some v) :
    fs.any (fun f => f.1 == k) = true := by
  cases ha : fs.any (fun f => f.1 == k)
  · rw [lookupLast_none_of_any_false ha] at h
    cases h
  · rfl

/-- Fixture builder: a place object with a name and coordinates. -/
def fixturePlace (nm lat lng : JValue) : JValue :=
  .obj [("name", nm),
        ("geometry", .obj [("location", .obj [("lat", lat), ("lng", lng)])])]

/-- Fixture builder: a full payload around one itinerary. -/
def fixturePayload (budget : List (String × JValue))
    (sections : List JValue) : JValue :=
  .obj [("tripPlanStore", .obj [("data", .obj [("tripPlan", .obj [
    ("itinerary",
      .obj [("budget", .obj budget), ("sections", .arr sections)])])])])]

/-- Payload with one place whose coordinates are far out of range. -/
def payloadRange : JValue :=
  fixturePayload [] [ .obj [("date", .str "2024-01-02"),
    ("blocks", .arr [ .obj [("type", .str "place"), ("id", .str "p1"),
      ("place", fixturePlace (.str "Hill") (.num 200) (.num 300))]])]]

/-- The record extracted from payloadRange. -/
def recRange : LocationRecord :=
  LocationRecord.mk (.str "Hill") (.num 200) (.num 300)
    (.str "2024-01-02") "02.01"

/-- Payload whose expense table sends the block to the number 0 as its
associated date. -/
def payloadZeroDate : JValue :=
  fixturePayload
    [("expenses", .arr [ .obj [("blockId", .str "b1"),
        ("associatedDate", .num 0)]])]
    [ .obj [("blocks", .arr [ .obj [("type", .str "place"),
      ("id", .str "b1"),
      ("place", fixturePlace (.str "Z") (.num 1) (.num 2))]])]]

/-- The record extracted from payloadZeroDate. -/
def recZero : LocationRecord :=
  LocationRecord.mk (.str "Z") (.num 1) (.num 2) (.num 0) ""

/-- Payload with one place whose name is the empty string. -/
def payloadEmptyName : JValue :=
  fixturePayload [] [ .obj [("blocks", .arr [ .obj [("type", .str "place"),
    ("id", .str "e1"),
    ("place", fixturePlace (.str "") (.num 3) (.num 4))]])]]

/-- The record extracted from payloadEmptyName. -/
def recEmptyName : LocationRecord :=
  LocationRecord.mk (.str "") (.num 3) (.num 4) (.str "") ""

/-- Payload with one place whose latitude is the boolean true. -/
def payloadBoolLat : JValue :=
  fixturePayload [] [ .obj [("blocks", .arr [ .obj [("type", .str "place"),
    ("id", .str "t1"),
    ("place", fixturePlace (.str "B") (.bool true) (.num 7))]])]]

/-- The record extracted from payloadBoolLat. -/
def recBool : LocationRecord :=
  LocationRecord.mk (.str "B") (.bool true) (.num 7) (.str "") ""

/-- Payload whose itinerary has sections but no budget key. -/
def payloadNoBudget : JValue :=
  .obj [("tripPlanStore", .obj [("data", .obj [("tripPlan", .obj [
    ("itinerary", .obj [("sections", .arr [])])])])])]

/-- Payload with one fully valid place block that carries no id field. -/
def payloadNoId : JValue :=
  fixturePayload [] [ .obj [("date", .str "2024-02-03"),
    ("blocks", .arr [ .obj [("type", .str "place"),
      ("place", fixturePlace (.str "NoId") (.num 1) (.num 2))]])]]

/-- C1: the claim says every emitted record has latitude in [-90, 90] and
longitude in [-180, 180] and that out-of-range blocks are dropped.  The
code never checks the range: this record with latitude 200 and longitude
300 is emitted, refuting the claim at a concrete payload. -/
theorem C1_counterexample :
    extract_data payloadRange = .ok [recRange] ∧
      (90 : ℚ) < numVal recRange.lat ∧ (180 : ℚ) < numVal recRange.lng :=
  ⟨by rfl, by decide, by decide⟩

/-- C1 amended: every record emitted by extract_data has latitude and
longitude values accepted by the isinstance int-or-float test of line 92
(numbers or booleans); blocks failing that test are dropped.  No range
restriction is checked, so out-of-range numeric values are emitted. -/
theorem C1_coords_numeric {data : JValue} {recs : List LocationRecord}
    (h : extract_data data = .ok recs) :
    ∀ r ∈ recs, isNum r.lat = true ∧ isNum r.lng = true := by
  intro r hr
  obtain ⟨h1, h2, _, _⟩ := extract_data_inv h hr
  exact ⟨h1, h2⟩

theorem C1_coords_numeric_witness :
    extract_data payloadRange = .ok [recRange] ∧
      isNum recRange.lat = true ∧ isNum recRange.lng = true :=
  ⟨by rfl, @C1_coords_numeric payloadRange [recRange] (by rfl) recRange
    (List.mem_singleton.mpr rfl)⟩

/-- C5: the claim says day_month is empty iff date is the empty string.
Here the effective date is the number 0, which is falsy, so day_month is
empty while date is not the empty string (it is not a string at all),
refuting the claimed equivalence at a concrete payload. -/
theorem C5_counterexample :
    extract_data payloadZeroDate = .ok [recZero] ∧ recZero.day_month = "" ∧
      recZero.date ≠ .str "" := by
  refine ⟨by rfl, rfl, fun hx => ?_⟩
  cases hx

/-- C5 amended: for every emitted record, day_month is empty iff the
effective date is falsy in the Python sense; when the effective date is a
string this is exactly the claimed equivalence, and for a nonempty date
string day_month is the slice [8:10], a dot, and the slice [5:7]. -/
theorem C5_day_month {data : JValue} {recs : List LocationRecord}
    (h : extract_data data = .ok recs) :
    ∀ r ∈ recs, (r.day_month = "" ↔ pyTruthy r.date = false) ∧
      (∀ s, r.date = .str s → r.day_month =
        if s = "" then "" else strSlice s 8 10 ++ "." ++ strSlice s 5 7) := by
  intro r hr
  obtain ⟨_, _, h3, h4⟩ := extract_data_inv h hr
  exact ⟨h3, h4⟩

theorem C5_day_month_witness :
    extract_data payloadRange = .ok [recRange] ∧
      (recRange.day_month = "" ↔ pyTruthy recRange.date = false) :=
  ⟨by rfl, (@C5_day_month payloadRange [recRange] (by rfl) recRange
    (List.mem_singleton.mpr rfl)).1⟩

/-- C10: a payload whose place has latitude true is emitted, not dropped:
the isinstance int-or-float check of line 92 accepts booleans because
Python bool is a subclass of int, and the boolean compares equal to 1. -/
theorem C10_bool_accepted :
    extract_data payloadBoolLat = .ok [recBool] ∧ recBool.lat = .bool true ∧
      numVal recBool.lat = 1 ∧ pyEqVal recBool.lat (.num 1) = true :=
  ⟨by rfl, rfl, by decide, by decide⟩

/-- C6: the claim says no record with an empty name is ever emitted.  The
code reads the name without any emptiness check, so a place named by the
empty string is emitted, refuting the claim at a concrete payload. -/
theorem C6_counterexample :
    extract_data payloadEmptyName = .ok [recEmptyName] ∧
      recEmptyName.name = .str "" :=
  ⟨by rfl, rfl⟩

/-- C3: the claim says an absent budget.expenses sequence is treated as
empty rather than an error.  When the budget key itself is missing, the
subscript at line 75 raises a KeyError that nothing catches, refuting the
claim at a concrete decoded payload (the tripPlanStore chain is intact,
so decoding succeeded). -/
theorem C3_counterexample :
    extract_data payloadNoBudget = .error .keyError := by rfl

/-- C3 amended: when the budget object is present, a missing expenses key
yields an empty table (the dict.get default of line 75); the finished
table maps a key to the associated date of the last expense item that
carries both a block id hashing to that key and an associated date, and
items lacking either field contribute nothing. -/
theorem C3_date_table :
    (∀ (tp : JValue) (itinF budgetF : List (String × JValue)),
      subscr tp "itinerary" = .ok (.obj itinF) →
      lookupLast itinF "budget" = some (.obj budgetF) →
      lookupLast budgetF "expenses" = none →
      buildTable tp = .ok []) ∧
    (∀ (es : List JValue) (t : List (PyKey × JValue)) (k : PyKey)
      (d : JValue), buildB2D [] es = .ok t →
      dictGet t k d = (lastDateFor es k).getD d) := by
  constructor
  · intro tp itinF budgetF h1 h2 h3
    have e2 : subscr (JValue.obj itinF) "budget" = .ok (.obj budgetF) := by
      simp [subscr, h2]
    have e3 : pyGetAttr (JValue.obj budgetF) "expenses" (.arr []) =
        .ok (.arr []) := by
      simp [pyGetAttr, h3]
    unfold buildTable
    simp only [h1, e2, e3, Bind.bind, Except.bind, pyIter, buildB2D]
  · intro es t k d h
    have hmain := buildB2D_get h k d
    simpa [dictGet] using hmain

/-- Fixture itinerary with a budget object that has no expenses key. -/
def tpNoExp : JValue :=
  .obj [("itinerary", .obj [("budget", .obj [("currency", .str "EUR")]),
    ("sections", .arr [])])]

/-- Fixture expense list with a duplicated block id. -/
def esW : List JValue :=
  [ .obj [("blockId", .str "b1"), ("associatedDate", .str "2024-05-03")],
    .obj [("blockId", .str "b1"), ("associatedDate", .str "2024-06-09")]]

theorem C3_date_table_witness :
    buildTable tpNoExp = .ok [] ∧
      dictGet [(PyKey.str "b1", JValue.str "2024-06-09")]
        (.str "b1") .null = (lastDateFor esW (.str "b1")).getD .null :=
  ⟨C3_date_table.1 tpNoExp
      [("budget", .obj [("currency", .str "EUR")]), ("sections", .arr [])]
      [("currency", .str "EUR")] (by rfl) (by rfl) (by rfl),
    C3_date_table.2 esW [(PyKey.str "b1", JValue.str "2024-06-09")]
      (.str "b1") .null (by rfl)⟩

/-- C4: the claim says a block with valid name and coordinates is still
emitted when the date lookups find nothing.  A block lacking the id field
raises KeyError at line 88 before any lookup and is dropped: the first
payload differs from the second only by the missing id, yet yields no
record, refuting the claim at a concrete payload. -/
theorem C4_counterexample :
    extract_data payloadNoId = .ok [] := by rfl

/-- C4 amended: for a place block carrying an id, the effective date of
the emitted record is the dict.get chain of line 88: the table entry for
the block id when present, else the section date field when present, else
the empty string; the block is emitted even when both lookups find
nothing.  A block lacking an id is dropped instead (see the
counterexample). -/
theorem C4_effective_date (b2d : List (PyKey × JValue))
    (sf bf pf gf lf : List (String × JValue))
    (idv nv latv lngv : JValue) (k : PyKey)
    (hty : lookupLast bf "type" = some (.str "place"))
    (hpl : lookupLast bf "place" = some (.obj pf))
    (hid : lookupLast bf "id" = some idv)
    (hk : toKey idv = some k)
    (hgeom : lookupLast pf "geometry" = some (.obj gf))
    (hloc : lookupLast gf "location" = some (.obj lf))
    (hlat : lookupLast lf "lat" = some latv)
    (hlng : lookupLast lf "lng" = some lngv)
    (hnum : isNum latv = true) (hnum2 : isNum lngv = true)
    (hnm : lookupLast pf "name" = some nv)
    (dm : String)
    (hdm : dayMonthOf
      (dictGet b2d k ((lookupLast sf "date").getD (.str ""))) = .ok dm) :
    blockStep b2d (.obj sf) (.obj bf) =
      .ok (some (LocationRecord.mk nv latv lngv
        (dictGet b2d k ((lookupLast sf "date").getD (.str ""))) dm)) := by
  have hq : pyEqVal (.str "place") (.str "place") = true := by decide
  have e1 : pyGetAttr (JValue.obj bf) "type" .null = .ok (.str "place") := by
    simp [pyGetAttr, hty]
  have e2 : pyContains "place" (JValue.obj bf) = .ok true := by
    simp [pyContains, any_of_lookupLast hpl]
  have e3 : subscr (JValue.obj bf) "place" = .ok (.obj pf) := by
    simp [subscr, hpl]
  have e4 : subscr (JValue.obj bf) "id" = .ok idv := by simp [subscr, hid]
  have e5 : pyGetAttr (JValue.obj sf) "date" (.str "") =
      .ok ((lookupLast sf "date").getD (.str "")) := by
    simp [pyGetAttr]
  have e6 : hashKey idv = .ok k := by simp [hashKey, hk]
  have e7 : subscr (JValue.obj pf) "geometry" = .ok (.obj gf) := by
    simp [subscr, hgeom]
  have e8 : subscr (JValue.obj gf) "location" = .ok (.obj lf) := by
    simp [subscr, hloc]
  have e9 : subscr (JValue.obj lf) "lat" = .ok latv := by simp [subscr, hlat]
  have e10 : subscr (JValue.obj lf) "lng" = .ok lngv := by
    simp [subscr, hlng]
  have e11 : subscr (JValue.obj pf) "name" = .ok nv := by simp [subscr, hnm]
  unfold blockStep innerStep recOfPlace
  simp only [e1, Bind.bind, Except.bind, hq, if_true, eq_self_iff_true, e2,
    e3, e4, e5, e6, e7, e8, e9, e10, e11, hdm, hnum, hnum2, catchKT,
    Bool.and_self, Bool.not_true, Bool.false_eq_true, if_false, Pure.pure,
    Except.pure]

/-- C6 amended: a place block whose place object lacks the name field is
dropped: the name subscript of line 95 raises KeyError, caught by the
inner try, even when everything else about the block is valid. -/
theorem C6_missing_name_dropped (b2d : List (PyKey × JValue))
    (sf bf pf gf lf : List (String × JValue))
    (idv latv lngv : JValue) (k : PyKey)
    (hty : lookupLast bf "type" = some (.str "place"))
    (hpl : lookupLast bf "place" = some (.obj pf))
    (hid : lookupLast bf "id" = some idv)
    (hk : toKey idv = some k)
    (hgeom : lookupLast pf "geometry" = some (.obj gf))
    (hloc : lookupLast gf "location" = some (.obj lf))
    (hlat : lookupLast lf "lat" = some latv)
    (hlng : lookupLast lf "lng" = some lngv)
    (hnum : isNum latv = true) (hnum2 : isNum lngv = true)
    (hnm : lookupLast pf "name" = none)
    (dm : String)
    (hdm : dayMonthOf
      (dictGet b2d k ((lookupLast sf "date").getD (.str ""))) = .ok dm) :
    blockStep b2d (.obj sf) (.obj bf) = .ok none := by
  have hq : pyEqVal (.str "place") (.str "place") = true := by decide
  have e1 : pyGetAttr (JValue.obj bf) "type" .null = .ok (.str "place") := by
    simp [pyGetAttr, hty]
  have e2 : pyContains "place" (JValue.obj bf) = .ok true := by
    simp [pyContains, any_of_lookupLast hpl]
  have e3 : subscr (JValue.obj bf) "place" = .ok (.obj pf) := by
    simp [subscr, hpl]
  have e4 : subscr (JValue.obj bf) "id" = .ok idv := by simp [subscr, hid]
  have e5 : pyGetAttr (JValue.obj sf) "date" (.str "") =
      .ok ((lookupLast sf "date").getD (.str "")) := by
    simp [pyGetAttr]
  have e6 : hashKey idv = .ok k := by simp [hashKey, hk]
  have e7 : subscr (JValue.obj pf) "geometry" = .ok (.obj gf) := by
    simp [subscr, hgeom]
  have e8 : subscr (JValue.obj gf) "location" = .ok (.obj lf) := by
    simp [subscr, hloc]
  have e9 : subscr (JValue.obj lf) "lat" = .ok latv := by simp [subscr, hlat]
  have e10 : subscr (JValue.obj lf) "lng" = .ok lngv := by
    simp [subscr, hlng]
  have e11 : subscr (JValue.obj pf) "name" = .error .keyError := by
    simp [subscr, hnm]
  unfold blockStep innerStep recOfPlace
  simp only [e1, Bind.bind, Except.bind, hq, if_true, eq_self_iff_true, e2,
    e3, e4, e5, e6, e7, e8, e9, e10, e11, hdm, hnum, hnum2, catchKT,
    Bool.and_self, Bool.not_true, Bool.false_eq_true, if_false, Pure.pure,
    Except.pure]

/-- Witness fixtures for the block-level theorems. -/
def lfWit : List (String × JValue) := [("lat", .num 5), ("lng", .num 6)]

/-- Geometry fields of the witness place. -/
def gfWit : List (String × JValue) := [("location", .obj lfWit)]

/-- Fields of the witness place object. -/
def pfWit : List (String × JValue) :=
  [("name", .str "W"), ("geometry", .obj gfWit)]

/-- Fields of the witness block. -/
def bfWit : List (String × JValue) :=
  [("type", .str "place"), ("id", .str "w9"), ("place", .obj pfWit)]

/-- Fields of the witness section. -/
def sfWit : List (String × JValue) := [("date", .str "2024-01-01")]

/-- Witness date table; the witness block id is absent from it. -/
def b2dWit : List (PyKey × JValue) := [(.str "w1", .str "2024-03-04")]

theorem C4_effective_date_witness :
    blockStep b2dWit (.obj sfWit) (.obj bfWit) =
      .ok (some (LocationRecord.mk (.str "W") (.num 5) (.num 6)
        (.str "2024-01-01") "01.01")) :=
  C4_effective_date b2dWit sfWit bfWit pfWit gfWit lfWit (.str "w9")
    (.str "W") (.num 5) (.num 6) (.str "w9") (by rfl) (by rfl) (by rfl)
    (by rfl) (by rfl) (by rfl) (by rfl) (by rfl) (by rfl) (by rfl) (by rfl)
    "01.01" (by rfl)

/-- Fields of a witness place object lacking the name field. -/
def pfWitNoName : List (String × JValue) := [("geometry", .obj gfWit)]

/-- Fields of a witness block whose place has no name. -/
def bfWitNoName : List (String × JValue) :=
  [("type", .str "place"), ("id", .str "w9"), ("place", .obj pfWitNoName)]

theorem C6_missing_name_dropped_witness :
    blockStep b2dWit (.obj sfWit) (.obj bfWitNoName) = .ok none :=
  C6_missing_name_dropped b2dWit sfWit bfWitNoName pfWitNoName gfWit lfWit
    (.str "w9") (.num 5) (.num 6) (.str "w9") (by rfl) (by rfl) (by rfl)
    (by rfl) (by rfl) (by rfl) (by rfl) (by rfl) (by rfl) (by rfl) (by rfl)
    "01.01" (by rfl)

theorem locatePayload_some {html : String} {g : List Char}
    (h : searchMobx html.data = some g) :
    locatePayload html = .ok (String.mk g) := by
  unfold locatePayload
  rw [h]

theorem locatePayload_fail {html : String}
    (h : searchMobx html.data = none) :
    locatePayload html = .error (.valueError
      "No JSON data found in HTML. Make sure you exported the correct Wanderlog page.") := by
  unfold locatePayload
  rw [h]

/-- The counterexample page: the payload object contains a string whose
text holds a closing brace followed by a semicolon. -/
def cxHtml : String := "window.__MOBX_STATE__ = \x7b\"a\": \"\x7d;\"\x7d;"

/-- C2: the claim says the located payload is the first balanced brace
block and that braces inside quoted strings do not end the match early.
On this page the non-greedy regex of line 63 stops at the first brace-
semicolon pair, which lies inside a quoted string: the located text is a
truncated, unbalanced fragment, not the balanced block that the spec-
modelled balanced scanner finds. -/
theorem C2_counterexample :
    locatePayload cxHtml = .ok "\x7b\"a\": \"\x7d" ∧
      locatePayloadSpec cxHtml = some "\x7b\"a\": \"\x7d;\"\x7d" ∧
      locatePayload cxHtml ≠ .ok "\x7b\"a\": \"\x7d;\"\x7d" := by
  refine ⟨by rfl, by rfl, fun hx => ?_⟩
  have h1 : locatePayload cxHtml = .ok "\x7b\"a\": \"\x7d" := by rfl
  rw [h1] at hx
  exact absurd (Except.ok.inj hx) (by decide)

/-- C2 amended: the extractor locates the payload as the text from the
first opening brace after the assignment of the fixed variable name up to
the first closing brace immediately followed by a semicolon, regardless
of brace balance or quoting; when the pattern matches nowhere, it fails
with the MissingPayload ValueError of line 65 and no records are
returned. -/
theorem C2_payload_located :
    (∀ (pre w1 w2 mid post : List Char),
      (∀ c ∈ w1, isPySpace c = true) → (∀ c ∈ w2, isPySpace c = true) →
      noLazyEnd mid = true →
      (∀ i < pre.length,
        litAt ((pre ++ (mobxLit ++ (w1 ++ '=' :: (w2 ++ '\x7b' ::
          (mid ++ '\x7d' :: ';' :: post))))).drop i) = false) →
      locatePayload (String.mk (pre ++ (mobxLit ++ (w1 ++ '=' :: (w2 ++
          '\x7b' :: (mid ++ '\x7d' :: ';' :: post)))))) =
        .ok (String.mk ('\x7b' :: (mid ++ ['\x7d'])))) ∧
    (∀ html : String,
      (∀ i < html.data.length, litAt (html.data.drop i) = false) →
      locatePayload html = .error (.valueError
        "No JSON data found in HTML. Make sure you exported the correct Wanderlog page.")) := by
  constructor
  · intro pre w1 w2 mid post hw1 hw2 hmid hpre
    apply locatePayload_some
    have hdata : (String.mk (pre ++ (mobxLit ++ (w1 ++ '=' :: (w2 ++
        '\x7b' :: (mid ++ '\x7d' :: ';' :: post)))))).data =
        pre ++ (mobxLit ++ (w1 ++ '=' :: (w2 ++ '\x7b' ::
          (mid ++ '\x7d' :: ';' :: post)))) := rfl
    rw [hdata, searchMobx_skip hpre]
    exact searchMobx_cons_hit (matchMobxAt_hit post hw1 hw2 hmid)
  · intro html hAll
    exact locatePayload_fail (searchMobx_none hAll)

theorem C2_payload_located_witness :
    locatePayload (String.mk (("page: ".data) ++ (mobxLit ++ ((" ".data) ++
        '=' :: ((" ".data) ++ '\x7b' :: (("\"k\": 1".data) ++ '\x7d' :: ';' ::
          " tail".data)))))) =
      .ok (String.mk ('\x7b' :: ("\"k\": 1".data ++ ['\x7d']))) ∧
    locatePayload "no payload at all" = .error (.valueError
      "No JSON data found in HTML. Make sure you exported the correct Wanderlog page.") :=
  ⟨C2_payload_located.1 "page: ".data " ".data " ".data "\"k\": 1".data
      " tail".data (by decide) (by decide) (by decide) (by decide),
    C2_payload_located.2 "no payload at all" (by decide)⟩

theorem placemarks_map (places : List LocationRecord) (title : String)
    (sd : Bool) :
    placemarksOf (create_kml places title sd) =
      places.map (mkPlacemark sd) := by
  show (places.map (mkPlacemark sd)).filter (fun c => c.tag == "Placemark") =
    places.map (mkPlacemark sd)
  refine List.filter_eq_self.mpr (fun a ha => ?_)
  obtain ⟨p, _, rfl⟩ := List.mem_map.mp ha
  rfl

/-- C7: the emitter writes one placemark per record, in input order, and
each placemark carries a coordinates text of the longitude, the latitude
and 0 joined by commas, longitude first, exactly as the f-string of line
126 renders them. -/
theorem C7_coordinates :
    (∀ (places : List LocationRecord) (title : String) (sd : Bool),
      placemarksOf (create_kml places title sd) =
        places.map (mkPlacemark sd)) ∧
    (∀ (sd : Bool) (p : LocationRecord),
      coordTextOf (mkPlacemark sd p) =
        some (.str (pyRender p.lng ++ "," ++ pyRender p.lat ++ ",0"))) :=
  ⟨placemarks_map, fun _ _ => rfl⟩

/-- C9: reading the generated document back yields exactly one placemark
per input record, in input order, and the placemark name is the bracketed
day and month followed by the name when show_dates is true and day_month
is nonempty, else the bare name value, as line 123 builds it. -/
theorem C9_roundtrip :
    (∀ (places : List LocationRecord) (title : String) (sd : Bool),
      (placemarksOf (create_kml places title sd)).length = places.length) ∧
    (∀ (places : List LocationRecord) (title : String) (sd : Bool),
      placemarksOf (create_kml places title sd) =
        places.map (mkPlacemark sd)) ∧
    (∀ (sd : Bool) (p : LocationRecord),
      nameTextOf (mkPlacemark sd p) =
        some (if sd && !(p.day_month == "") then
          .str ("[" ++ p.day_month ++ "] " ++ pyRender p.name)
        else p.name)) :=
  ⟨fun places title sd => by rw [placemarks_map]; exact List.length_map _ _,
    placemarks_map, fun _ _ => rfl⟩

/-- C8: grouping for the split emission preserves the records as a
multiset: the groups flatten to a permutation of the input, and a record
whose date is the empty string can only sit in the group keyed by the
reserved no_date string. -/
theorem C8_grouping {ps : List LocationRecord}
    {gs : List (PyKey × List LocationRecord)} (h : groupByDate ps = .ok gs) :
    (((gs.map Prod.snd).flatten).Perm ps) ∧
    ∀ kg ∈ gs, ∀ p ∈ kg.2, p.date = .str "" → kg.1 = .str "no_date" := by
  constructor
  · have hperm := groupAux_perm h
    simpa using hperm
  · intro kg hkg p hp hdate
    have hOK : GroupsOK gs :=
      groupAux_ok h (fun kg2 hkg2 => absurd hkg2 (List.not_mem_nil kg2))
    have hkey := hOK kg hkg p hp
    have hred : keyOf p = Except.ok (PyKey.str "no_date") := by
      rw [keyOf, hdate]
      rfl
    rw [hred] at hkey
    exact (Except.ok.inj hkey).symm

/-- Witness records for the grouping claim. -/
def r1W : LocationRecord :=
  LocationRecord.mk (.str "A") (.num 1) (.num 2) (.str "2024-01-02") "02.01"

/-- Witness record with an empty date. -/
def r2W : LocationRecord :=
  LocationRecord.mk (.str "B") (.num 3) (.num 4) (.str "") ""

/-- The groups produced for the witness records. -/
def gsW : List (PyKey × List LocationRecord) :=
  [(.str "2024-01-02", [r1W]), (.str "no_date", [r2W])]

theorem C8_grouping_witness :
    groupByDate [r1W, r2W] = .ok gsW ∧
      ((gsW.map Prod.snd).flatten).Perm [r1W, r2W] :=
  ⟨by rfl, (@C8_grouping [r1W, r2W] gsW (by rfl)).1⟩

end Wanderlog
